import Mathlib

/-!
Shallow embedding of the OpenSearch incremental-migration tool
(src/migration_workflow_helper.py, src/logstash_helper.py,
src/opensearch_incremental_migration_v2.py) and proofs about the claims
of its specification.

Python strings are modelled as lists of characters (`Str`), compared by
code point exactly as Python compares strings.  Python `datetime` values
are modelled by `PyDateTime` (days since 1970-01-01 plus time-of-day
fields plus an optional UTC-offset in minutes; a missing offset is a
naive datetime).  `pyIsoformat` mirrors `datetime.isoformat()`.
-/

namespace OpensearchMigration

/-- A Python string, as its list of characters.  Python compares strings
lexicographically by code point, which is `strLtB` below. -/
abbrev Str := List Char

/-- Python string comparison `a < b`: lexicographic by code point. -/
def strLtB : Str → Str → Bool
  | [], [] => false
  | [], _ :: _ => true
  | _ :: _, [] => false
  | a :: as, b :: bs =>
    if a < b then true else if b < a then false else strLtB as bs

/-- A string is never less than itself. -/
theorem strLtB_irrefl (s : Str) : strLtB s s = false := by
  induction s with
  | nil => rfl
  | cons a as ih => simp [strLtB, ih]

/-- Python `str.strip()` restricted to character-level whitespace:
drop whitespace from both ends. -/
def pyStrip (s : Str) : Str :=
  ((s.dropWhile Char.isWhitespace).reverse.dropWhile Char.isWhitespace).reverse

/-- Model of a parsed Python `datetime`: `days` is the civil day count
since 1970-01-01 (negative before), time-of-day fields, microseconds,
and an optional timezone offset in minutes (`none` = naive datetime). -/
structure PyDateTime where
  days : Int
  hour : Nat
  minute : Nat
  second : Nat
  usec : Nat
  offset : Option Int
deriving DecidableEq, Repr

/-- Civil date (year, month, day) of a day count since 1970-01-01
(standard civil-from-days algorithm, used only to render dates). -/
def civilFromDays (z0 : Int) : Int × Nat × Nat :=
  let z := z0 + 719468
  let era : Int := Int.tdiv (if 0 ≤ z then z else z - 146096) 146097
  let doe : Nat := (z - era * 146097).toNat
  let yoe : Nat := (doe - doe / 1460 + doe / 36524 - doe / 146096) / 365
  let y : Int := (yoe : Int) + era * 400
  let doy : Nat := doe - (365 * yoe + yoe / 4 - yoe / 100)
  let mp : Nat := (5 * doy + 2) / 153
  let d : Nat := doy - (153 * mp + 2) / 5 + 1
  let m : Nat := if mp < 10 then mp + 3 else mp - 9
  (if m ≤ 2 then y + 1 else y, m, d)

/-- Day count since 1970-01-01 of a civil date (standard days-from-civil
algorithm); used to build concrete `PyDateTime` values. -/
def daysFromCivil (y : Int) (m d : Nat) : Int :=
  let y' : Int := if m ≤ 2 then y - 1 else y
  let era : Int := Int.tdiv (if 0 ≤ y' then y' else y' - 399) 400
  let yoe : Nat := (y' - era * 400).toNat
  let mp : Nat := (m + 9) % 12
  let doy : Nat := (153 * mp + 2) / 5 + d - 1
  let doe : Nat := yoe * 365 + yoe / 4 - yoe / 100 + doy
  era * 146097 + (doe : Int) - 719468

/-- Build a `PyDateTime` from a civil date and time fields. -/
def mkDateTime (y : Int) (m d h mi s usec : Nat) (off : Option Int) : PyDateTime :=
  ⟨daysFromCivil y m d, h, mi, s, usec, off⟩

/-- The instant a `PyDateTime` denotes, in microseconds since the epoch.
A naive datetime is interpreted as UTC, matching the normalization in
`_time_diff_minutes` (which appends "+00:00" to naive strings). -/
def instantUsec (t : PyDateTime) : Int :=
  (((t.days * 1440 + (t.hour : Int) * 60 + (t.minute : Int)) - t.offset.getD 0) * 60
      + (t.second : Int)) * 1000000 + (t.usec : Int)

/-- `OpenSearchMigrationWorkflowHelper._time_diff_minutes`: the two ISO
strings are normalized to timezone-aware datetimes (Z and naive both
become +00:00) and the difference is truncated to whole minutes
(`int((dt2 - dt1).total_seconds() / 60)`, truncation toward zero). -/
def time_diff_minutes (t1 t2 : PyDateTime) : Int :=
  Int.tdiv (instantUsec t2 - instantUsec t1) 60000000

/-- The decimal digit character of `n % 10`. -/
def digitChar (n : Nat) : Char := Char.ofNat (48 + n % 10)

/-- The last `w` decimal digits of `n`, zero padded (Python %0wd for
`n < 10^w`). -/
def padDigits : Nat → Nat → Str
  | 0, _ => []
  | w + 1, n => padDigits w (n / 10) ++ [digitChar n]

/-- Python rendering of a UTC offset (minutes) as +HH:MM or -HH:MM. -/
def renderOffset (o : Int) : Str :=
  let a := o.natAbs
  (if o < 0 then ['-'] else ['+']) ++ padDigits 2 (a / 60) ++ [':'] ++ padDigits 2 (a % 60)

/-- Python `datetime.isoformat()`: date and time fields, a 6-digit
fraction only when microseconds are nonzero, and the offset only for
aware datetimes. -/
def pyIsoformat (t : PyDateTime) : Str :=
  let c := civilFromDays t.days
  padDigits 4 c.1.toNat ++ ['-'] ++ padDigits 2 c.2.1 ++ ['-'] ++ padDigits 2 c.2.2 ++ ['T'] ++
  padDigits 2 t.hour ++ [':'] ++ padDigits 2 t.minute ++ [':'] ++ padDigits 2 t.second ++
  (if t.usec = 0 then [] else '.' :: padDigits 6 t.usec) ++
  (match t.offset with
   | none => []
   | some o => renderOffset o)

/-- A source-cluster timestamp string: the datetime it denotes plus
whether the string spells UTC with a "Z" suffix (common in
Elasticsearch documents) instead of an explicit offset. -/
structure SourceTS where
  dt : PyDateTime
  zSuffix : Bool
deriving DecidableEq, Repr

/-- The literal string of a source timestamp. -/
def SourceTS.render (t : SourceTS) : Str :=
  if t.zSuffix then pyIsoformat { t.dt with offset := none } ++ ['Z'] else pyIsoformat t.dt

/-- What Python `fromisoformat` yields for the string after the code
replaces "Z" with "+00:00" (so a Z string parses as offset +00:00). -/
def SourceTS.parse (t : SourceTS) : PyDateTime :=
  if t.zSuffix then { t.dt with offset := some 0 } else t.dt

/-- The batch size chosen inside `get_next_time` (hours) from the gap in
minutes: `if gap_minutes > 1440: 12 elif gap_minutes > 360: 6 else: 1`. -/
def batch_hours (gap_minutes : Int) : Nat :=
  if 1440 < gap_minutes then 12 else if 360 < gap_minutes then 6 else 1

/-- `dt + timedelta(hours=k)`: add hours with day carry; all other
fields (including the offset) are unchanged. -/
def addHours (k : Nat) (t : PyDateTime) : PyDateTime :=
  let h := t.hour + k
  { t with days := t.days + (h / 24 : Nat), hour := h % 24 }

/-- `OpenSearchMigrationWorkflowHelper.get_next_time`: parse the start
string ("Z" replaced by "+00:00" first, so `start` is the parsed
datetime), add `batch_hours` hours, render with `isoformat()`, and clamp
by PYTHON STRING COMPARISON: `if next_time > source_latest: next_time =
source_latest`.  `source_latest` is the raw string read from the source
cluster. -/
def get_next_time (start : PyDateTime) (gap_minutes : Int) (source_latest : Str) : Str :=
  let next_time := pyIsoformat (addHours (batch_hours gap_minutes) start)
  if strLtB source_latest next_time then source_latest else next_time

/-- `get_next_time` where the source-latest string is given through its
`SourceTS` description; returns the `SourceTS` whose `render` is exactly
the string the Python function returns. -/
def get_next_timeTS (start : PyDateTime) (gap_minutes : Int) (latest : SourceTS) : SourceTS :=
  let next_time := pyIsoformat (addHours (batch_hours gap_minutes) start)
  if strLtB latest.render next_time then latest else ⟨addHours (batch_hours gap_minutes) start, false⟩

/-- The structured clamp agrees with the string-level function. -/
theorem get_next_timeTS_render (start : PyDateTime) (g : Int) (latest : SourceTS) :
    (get_next_timeTS start g latest).render = get_next_time start g latest.render := by
  unfold get_next_timeTS get_next_time
  by_cases h : strLtB latest.render (pyIsoformat (addHours (batch_hours g) start)) = true
  · rw [if_pos h, if_pos h]
  · rw [if_neg h, if_neg h]
    simp [SourceTS.render]

/-! ## Checkpoint store

The progress file: `save_progress` overwrites it with the timestamp
string, `get_start_time` reads it back and strips it, and the cutover
success path removes it with `Path.unlink(missing_ok=True)`. -/

/-- The durable state seen by the checkpoint code: the progress file
content when the file exists. -/
structure FS where
  progress : Option Str
deriving DecidableEq

/-- `save_progress`: open the progress file with mode "w" (truncate)
and write the timestamp string. -/
def save_progress (_fs : FS) (start_time : Str) : FS :=
  { progress := some start_time }

/-- `Path(progress_file).unlink(missing_ok=...)`: removing a missing
file errors unless `missing_ok` is set; the code always passes
`missing_ok=True`. -/
def unlink_progress (missing_ok : Bool) (fs : FS) : Except Unit FS :=
  if fs.progress.isNone && !missing_ok then .error () else .ok { progress := none }

/-- The checkpoint-read path of `get_start_time`: if the progress file
exists, its content with `.strip()` applied. -/
def load_progress (fs : FS) : Option Str :=
  fs.progress.map pyStrip

/-- The three cluster/snapshot queries `get_start_time` may perform. -/
inductive ClusterQuery
  | snapshotStart
  | targetLatest
  | sourceEarliest
deriving DecidableEq, Repr

/-- Python truthiness of an optional string (`if not start_time` treats
both a missing value and an empty string as false). -/
def truthy : Option Str → Bool
  | none => false
  | some s => !s.isEmpty

/-- `OpenSearchMigrationWorkflowHelper.get_start_time`: resume from the
progress file if it exists; otherwise fall through snapshot time, then
target latest, then source earliest; `none` is the `sys.exit(1)` path.
The second component records the queries issued, in order.  The query
results are supplied as oracles (the queries are network reads). -/
def get_start_time (fs : FS) (snapshot_time target_latest source_earliest : Option Str) :
    Option Str × List ClusterQuery :=
  match fs.progress with
  | some content => (some (pyStrip content), [])
  | none =>
    if truthy snapshot_time then
      (snapshot_time, [.snapshotStart])
    else if truthy target_latest then
      (target_latest, [.snapshotStart, .targetLatest])
    else if truthy source_earliest then
      (source_earliest, [.snapshotStart, .targetLatest, .sourceEarliest])
    else
      (none, [.snapshotStart, .targetLatest, .sourceEarliest])

/-! ## Batch sync port (`LogStashHelper.run_incremental_sync`)

One subprocess attempt either exits 0 (success), exits nonzero, hits
the 3600s timeout, or raises some other exception.  The loop runs
`attempt` from 0 to `max_retries - 1`.  Only the nonzero-exit branch
sleeps `(attempt + 1) * 30` seconds before retrying; the timeout and
exception branches retry immediately.  On the last attempt every
failure kind raises.  The `return False` after the loop is reached only
when the loop body never runs. -/

/-- Outcome of one Logstash subprocess invocation. -/
inductive AttemptOutcome
  | success
  | exitFail
  | timedOut
  | excRaised
deriving DecidableEq, Repr

/-- What `run_incremental_sync` does as seen by its caller. -/
inductive SyncRet
  | retTrue
  | retFalse
  | raisedErr
deriving DecidableEq, Repr

/-- Observable trace of one `run_incremental_sync` call: the result,
the number of attempts made, and the seconds slept between attempts in
order. -/
structure SyncTrace where
  result : SyncRet
  attempts : Nat
  waits : List Nat
deriving DecidableEq, Repr

/-- The retry loop from attempt index `attempt` on, with `fuel`
iterations left (`fuel = max_retries - attempt` at every call). -/
def runSyncFrom (outcomes : Nat → AttemptOutcome) (max_retries : Nat) :
    Nat → Nat → SyncTrace
  | _, 0 => ⟨.retFalse, 0, []⟩
  | attempt, fuel + 1 =>
    match outcomes attempt with
    | .success => ⟨.retTrue, 1, []⟩
    | .exitFail =>
      if attempt < max_retries - 1 then
        let t := runSyncFrom outcomes max_retries (attempt + 1) fuel
        ⟨t.result, t.attempts + 1, (attempt + 1) * 30 :: t.waits⟩
      else ⟨.raisedErr, 1, []⟩
    | .timedOut =>
      if attempt < max_retries - 1 then
        let t := runSyncFrom outcomes max_retries (attempt + 1) fuel
        ⟨t.result, t.attempts + 1, t.waits⟩
      else ⟨.raisedErr, 1, []⟩
    | .excRaised =>
      if attempt < max_retries - 1 then
        let t := runSyncFrom outcomes max_retries (attempt + 1) fuel
        ⟨t.result, t.attempts + 1, t.waits⟩
      else ⟨.raisedErr, 1, []⟩

/-- `LogStashHelper.run_incremental_sync` with retry budget
`max_retries` (the callers use the default, 3), driven by the outcome
of each subprocess attempt. -/
def run_incremental_sync (outcomes : Nat → AttemptOutcome) (max_retries : Nat) : SyncTrace :=
  runSyncFrom outcomes max_retries 0 max_retries

/-! ## Migration controller (`OpenSearchMigrationWorkflowHelper`)

`run_migration` loops: read the source-latest timestamp, compute the
gap, enter `handle_near_realtime` when the gap is at most 5 minutes,
otherwise (or when the cutover reports not-ready) compute the next
window end and run one incremental sync; on sync success advance
`start_time` and save it to the progress file; a falsy sync result or
any raised exception is `sys.exit(1)`.

The network reads, the wall clock and the sync outcomes are supplied as
per-iteration oracles.  Observable side effects (sync invocations,
progress-file writes, progress-file deletion) are returned as an
ordered event list. -/

/-- Oracles consumed by one `handle_near_realtime` call: the
source-latest read at entry (used only for the log line), the fresh
source-latest read after the operator confirms writes are stopped, the
wall-clock value taken for `final_latest = datetime.now().isoformat()`
(a naive datetime), and the outcome of the final sync if it runs. -/
structure HNROracle where
  latest1 : SourceTS
  latest2 : SourceTS
  now : PyDateTime
  sync : SyncRet
deriving DecidableEq, Repr

/-- Oracles consumed by one `run_migration` loop iteration: the
source-latest read at the top of the iteration, the cutover oracle
(consumed only when the gap is at most 5), and the outcome of the
incremental sync for the computed window (consumed only when that sync
runs). -/
structure IterOracle where
  latest : SourceTS
  hnr : HNROracle
  sync : SyncRet
deriving DecidableEq, Repr

/-- Loop state of `run_migration`: the current `start_time` (a string,
carried as the `SourceTS` it denotes) and the progress-file content. -/
structure MigState where
  start : SourceTS
  checkpoint : Option SourceTS
deriving DecidableEq, Repr

/-- How `handle_near_realtime` ends: return `False` (not ready),
`sys.exit(0)`, `sys.exit(1)`, or propagate an exception raised by the
final `run_incremental_sync` (which `run_migration`'s handler turns
into `sys.exit(1)`). -/
inductive HNRRes
  | notReady
  | exitZero
  | exitOne
  | raisedE
deriving DecidableEq, Repr

/-- Observable effects of the controller, in order: a sync invocation
for the window `[s, e)` with its outcome, a progress-file write, a
progress-file deletion. -/
inductive Event
  | eSync (s e : SourceTS) (r : SyncRet)
  | eSave (v : SourceTS)
  | eDeleteCheckpoint
deriving DecidableEq, Repr

/-- `OpenSearchMigrationWorkflowHelper.handle_near_realtime`: log the
gap at entry, block until the operator confirms, recompute the gap from
a FRESH source-latest read; if it is still above 6 minutes return
`False`; otherwise run one final sync over `[start_time, now)`: on
`True` delete the progress file and `sys.exit(0)`, on a falsy result
`sys.exit(1)`, and a raised exception propagates.  Returns the outcome,
the progress-file state afterwards, and the effect events. -/
def handle_near_realtime (start : SourceTS) (o : HNROracle) (cp : Option SourceTS) :
    HNRRes × Option SourceTS × List Event :=
  let _gap_entry := time_diff_minutes start.parse o.latest1.parse
  let gap_minutes := time_diff_minutes start.parse o.latest2.parse
  if 6 < gap_minutes then
    (.notReady, cp, [])
  else
    match o.sync with
    | .retTrue => (.exitZero, none, [.eSync start ⟨o.now, false⟩ .retTrue, .eDeleteCheckpoint])
    | .retFalse => (.exitOne, cp, [.eSync start ⟨o.now, false⟩ .retFalse])
    | .raisedErr => (.raisedE, cp, [.eSync start ⟨o.now, false⟩ .raisedErr])

/-- How one loop iteration ends when it does not continue: the process
exits 0 (cutover completed) or exits 1 (any failure). -/
inductive StepExit
  | exitZero
  | exitOne
deriving DecidableEq, Repr

/-- The tail of a `run_migration` iteration, from `next_time =
get_next_time(...)` on: run the incremental sync for
`[start, next_time)`; on success set `start_time = next_time`, save
progress and continue; a falsy result or an exception is
`sys.exit(1)`. -/
def batchPhase (st : MigState) (gap_minutes : Int) (latest : SourceTS) (syncR : SyncRet) :
    (MigState ⊕ StepExit) × List Event :=
  let next := get_next_timeTS st.start.parse gap_minutes latest
  match syncR with
  | .retTrue => (Sum.inl ⟨next, some next⟩, [.eSync st.start next .retTrue, .eSave next])
  | .retFalse => (Sum.inr .exitOne, [.eSync st.start next .retFalse])
  | .raisedErr => (Sum.inr .exitOne, [.eSync st.start next .raisedErr])

/-- One iteration of the `run_migration` loop.  Note that when
`handle_near_realtime` returns `False` the iteration falls through to
`get_next_time(start_time, gap_minutes, source_latest)` with the gap
and source-latest values read at the TOP of the iteration, before the
cutover prompt. -/
def runStep (st : MigState) (o : IterOracle) : (MigState ⊕ StepExit) × List Event :=
  let gap_minutes := time_diff_minutes st.start.parse o.latest.parse
  if gap_minutes ≤ 5 then
    match handle_near_realtime st.start o.hnr st.checkpoint with
    | (.notReady, cp', evs) =>
      let r := batchPhase ⟨st.start, cp'⟩ gap_minutes o.latest o.sync
      (r.1, evs ++ r.2)
    | (.exitZero, _, evs) => (Sum.inr .exitZero, evs)
    | (.exitOne, _, evs) => (Sum.inr .exitOne, evs)
    | (.raisedE, _, evs) => (Sum.inr .exitOne, evs)
  else
    batchPhase st gap_minutes o.latest o.sync

/-- The `run_migration` loop driven by a finite list of per-iteration
oracles: returns the exit (if any iteration terminated the process),
the concatenated event trace, and the final loop state. -/
def runLoop (st : MigState) : List IterOracle → Option StepExit × List Event × MigState
  | [] => (none, [], st)
  | o :: os =>
    match runStep st o with
    | (Sum.inl st', evs) =>
      let r := runLoop st' os
      (r.1, evs ++ r.2.1, r.2.2)
    | (Sum.inr ex, evs) => (some ex, evs, st)

/-- The windows of the successful sync invocations in a trace. -/
def okWindows (evs : List Event) : List (SourceTS × SourceTS) :=
  evs.filterMap fun e =>
    match e with
    | .eSync s e' .retTrue => some (s, e')
    | _ => none

/-- The progress values saved in a trace, in order. -/
def saveVals (evs : List Event) : List SourceTS :=
  evs.filterMap fun e =>
    match e with
    | .eSave v => some v
    | _ => none

/-- Adjacent-event check: a save of `v` is acceptable only right after
a successful sync whose window ends at `v`. -/
def saveOkPairB : Event → Event → Bool
  | .eSync _ e .retTrue, .eSave v => decide (e = v)
  | _, .eSave _ => false
  | _, _ => true

/-- A trace never saves progress except immediately after the
corresponding successful sync: no save first, and every adjacent pair
satisfies `saveOkPairB`. -/
def savesAfterSuccessB (evs : List Event) : Bool :=
  (match evs.head? with
   | some (.eSave _) => false
   | _ => true) &&
  decide (List.Chain' (fun a b => saveOkPairB a b = true) evs)

/-- Dynamic well-formedness of an oracle list for a run: at every
iteration the source-latest read is not earlier (as an instant) than
the current `start_time` (the source cluster's latest timestamp never
falls behind the already-migrated horizon). -/
def latestsFreshB : MigState → List IterOracle → Bool
  | _, [] => true
  | st, o :: os =>
    decide (instantUsec st.start.parse ≤ instantUsec o.latest.parse) &&
    (match runStep st o with
     | (Sum.inl st', _) => latestsFreshB st' os
     | (Sum.inr _, _) => true)

/-! ## Claims -/

/-- C5: for every gap value, `get_next_time` selects a window length of
exactly 12 hours when the gap exceeds 1440 minutes, 6 hours when it is
above 360 and at most 1440, and 1 hour when it is at most 360; the
boundary values 1440 and 360 fall to the lower tier because the
comparisons are strict. -/
theorem batch_hours_tiers (gap : Int) :
    (1440 < gap → batch_hours gap = 12) ∧
    (360 < gap ∧ gap ≤ 1440 → batch_hours gap = 6) ∧
    (gap ≤ 360 → batch_hours gap = 1) := by
  unfold batch_hours
  refine ⟨fun h => if_pos h, fun h => ?_, fun h => ?_⟩
  · rw [if_neg (by omega), if_pos h.1]
  · rw [if_neg (by omega), if_neg (by omega)]

/-- Witness for C5 at the tier boundaries. -/
theorem batch_hours_tiers_witness :
    batch_hours 2000 = 12 ∧ batch_hours 1440 = 6 ∧ batch_hours 360 = 1 :=
  ⟨(batch_hours_tiers 2000).1 (by decide),
   (batch_hours_tiers 1440).2.1 ⟨by decide, by decide⟩,
   (batch_hours_tiers 360).2.2 (by decide)⟩

/-- C4 is false on the code: the clamp compares ISO strings, not
instants.  With checkpoint string "2024-01-01T00:00:00.000001+00:00"
(one microsecond past midnight, a format `isoformat()` itself produces)
and source latest "2024-01-01T01:00:00Z" (a Z-suffixed UTC string as
stored in source documents), the start is before the latest, yet the
computed window end "2024-01-01T01:00:00.000001+00:00" compares LESS
than the latest string (the character "." is below "Z"), so no clamping
happens and the returned window end is one microsecond after the source
latest as an instant. -/
theorem get_next_time_clamp_counterexample :
    instantUsec (mkDateTime 2024 1 1 0 0 0 1 (some 0)) ≤
      instantUsec (SourceTS.parse ⟨mkDateTime 2024 1 1 1 0 0 0 (some 0), true⟩) ∧
    SourceTS.render ⟨mkDateTime 2024 1 1 1 0 0 0 (some 0), true⟩ =
      "2024-01-01T01:00:00Z".toList ∧
    get_next_time (mkDateTime 2024 1 1 0 0 0 1 (some 0)) 59 "2024-01-01T01:00:00Z".toList =
      pyIsoformat (mkDateTime 2024 1 1 1 0 0 1 (some 0)) ∧
    instantUsec (SourceTS.parse ⟨mkDateTime 2024 1 1 1 0 0 0 (some 0), true⟩) <
      instantUsec (mkDateTime 2024 1 1 1 0 0 1 (some 0)) := by
  refine ⟨by decide, by decide, by decide, by decide⟩

/-- C4 (amended): `get_next_time` never returns a value greater than
`source_latest` in the PYTHON STRING ORDER the code uses for the clamp
(so the window-end bound holds at string level for all inputs, and at
instant level only when string order and instant order agree on the
operands, which the counterexample shows can fail for mixed formats). -/
theorem get_next_time_never_string_greater (start : PyDateTime) (gap : Int) (latest : Str) :
    strLtB latest (get_next_time start gap latest) = false := by
  unfold get_next_time
  cases hb : strLtB latest (pyIsoformat (addHours (batch_hours gap) start)) with
  | true => rw [if_pos hb]; exact strLtB_irrefl latest
  | false => rw [if_neg (by simp [hb])]; exact hb

/-- C2 is false on the code: only the nonzero-exit branch sleeps before
retrying.  With every attempt timing out, `run_incremental_sync` makes
exactly 3 attempts and raises, but performs NO backoff waits at all,
contradicting the claimed 30s/60s waits regardless of failure kind. -/
theorem run_incremental_sync_backoff_counterexample :
    run_incremental_sync (fun _ => .timedOut) 3 = ⟨.raisedErr, 3, []⟩ ∧
    (run_incremental_sync (fun _ => .timedOut) 3).waits ≠ [30, 60] := by
  refine ⟨by decide, by decide⟩

/-- C2 (amended): with `max_retries = 3` and an executor whose every
invocation fails, `run_incremental_sync` makes exactly 3 attempts and
then raises; it waits `attempt_index * 30` seconds after a failed
attempt ONLY when that failure was a nonzero exit status (30s after the
first such failure, 60s after the second); timeouts and invocation
exceptions retry immediately, and no wait follows the final attempt. -/
theorem run_incremental_sync_retry_exhaustion (outcomes : Nat → AttemptOutcome)
    (h : ∀ i, i < 3 → outcomes i ≠ .success) :
    (run_incremental_sync outcomes 3).result = .raisedErr ∧
    (run_incremental_sync outcomes 3).attempts = 3 ∧
    (run_incremental_sync outcomes 3).waits =
      (if outcomes 0 = .exitFail then [30] else []) ++
      (if outcomes 1 = .exitFail then [60] else []) := by
  have h0 := h 0 (by omega)
  have h1 := h 1 (by omega)
  have h2 := h 2 (by omega)
  unfold run_incremental_sync
  cases o0 : outcomes 0 <;> cases o1 : outcomes 1 <;> cases o2 : outcomes 2 <;>
    simp_all [runSyncFrom]

/-- Witness for C2 (amended): all attempts failing with nonzero exit
status yields the 30s and 60s backoff waits. -/
theorem run_incremental_sync_retry_exhaustion_witness :
    (run_incremental_sync (fun _ => .exitFail) 3).result = .raisedErr ∧
    (run_incremental_sync (fun _ => .exitFail) 3).attempts = 3 ∧
    (run_incremental_sync (fun _ => .exitFail) 3).waits = [30, 60] := by
  have := run_incremental_sync_retry_exhaustion (fun _ => .exitFail) (by intro i _ hc; simp at hc)
  simpa using this

/-- Helper for C10: with the loop invariant `attempt + fuel =
max_retries`, a sync call with at least one attempt left never reaches
the `return False` after the loop. -/
theorem runSyncFrom_ne_retFalse (outcomes : Nat → AttemptOutcome) (m : Nat) :
    ∀ fuel attempt, attempt + fuel = m → 1 ≤ fuel →
      (runSyncFrom outcomes m attempt fuel).result ≠ .retFalse := by
  intro fuel
  induction fuel with
  | zero => intro attempt _ h1; omega
  | succ n ih =>
    intro attempt hinv _
    cases o : outcomes attempt with
    | success => simp [runSyncFrom, o]
    | exitFail =>
      by_cases hlt : attempt < m - 1
      · have hn : 1 ≤ n := by omega
        have := ih (attempt + 1) (by omega) hn
        simp [runSyncFrom, o, hlt, this]
      · simp [runSyncFrom, o, hlt]
    | timedOut =>
      by_cases hlt : attempt < m - 1
      · have hn : 1 ≤ n := by omega
        have := ih (attempt + 1) (by omega) hn
        simp [runSyncFrom, o, hlt, this]
      · simp [runSyncFrom, o, hlt]
    | excRaised =>
      by_cases hlt : attempt < m - 1
      · have hn : 1 ≤ n := by omega
        have := ih (attempt + 1) (by omega) hn
        simp [runSyncFrom, o, hlt, this]
      · simp [runSyncFrom, o, hlt]

/-- C10: for any retry budget of at least one attempt (the callers use
the default 3), `run_incremental_sync` never returns `False`: every
execution either returns `True` or raises, so the `return False` after
the retry loop and the falsy-result branches in the callers are
unreachable. -/
theorem run_incremental_sync_never_false (outcomes : Nat → AttemptOutcome) (m : Nat)
    (h : 1 ≤ m) :
    (run_incremental_sync outcomes m).result ≠ .retFalse ∧
    ((run_incremental_sync outcomes m).result = .retTrue ∨
      (run_incremental_sync outcomes m).result = .raisedErr) := by
  have hne := runSyncFrom_ne_retFalse outcomes m m 0 (by omega) h
  refine ⟨hne, ?_⟩
  cases hres : (run_incremental_sync outcomes m).result with
  | retTrue => exact Or.inl rfl
  | retFalse => exact absurd hres hne
  | raisedErr => exact Or.inr rfl

/-- Witness for C10 at an always-failing executor with the default
budget of 3. -/
theorem run_incremental_sync_never_false_witness :
    (run_incremental_sync (fun _ => .excRaised) 3).result ≠ .retFalse :=
  (run_incremental_sync_never_false (fun _ => .excRaised) 3 (by decide)).1

/-- C8: whenever the progress file exists, `get_start_time` returns its
stored (stripped) timestamp and performs no query against the source
cluster, the target cluster, or the snapshot repository. -/
theorem get_start_time_resume (fs : FS) (content : Str)
    (snapshot_time target_latest source_earliest : Option Str)
    (h : fs.progress = some content) :
    get_start_time fs snapshot_time target_latest source_earliest =
      (some (pyStrip content), []) ∧
    (pyStrip content = content →
      get_start_time fs snapshot_time target_latest source_earliest = (some content, [])) := by
  have h1 : get_start_time fs snapshot_time target_latest source_earliest =
      (some (pyStrip content), []) := by
    unfold get_start_time
    rw [h]
  exact ⟨h1, fun he => by rw [h1, he]⟩

/-- Witness for C8 with a concrete stored timestamp and arbitrary
pending query answers. -/
theorem get_start_time_resume_witness :
    get_start_time ⟨some "2024-01-01T00:00:00".toList⟩
        (some "x".toList) (some "y".toList) (some "z".toList) =
      (some "2024-01-01T00:00:00".toList, []) :=
  (get_start_time_resume ⟨some "2024-01-01T00:00:00".toList⟩ "2024-01-01T00:00:00".toList
    (some "x".toList) (some "y".toList) (some "z".toList) rfl).2 (by decide)

/-- C9: saving a (whitespace-free) timestamp and then loading through
the checkpoint-read path returns it unchanged; after clearing, a load
reports absent; and clearing with `missing_ok=True` (as the code does)
succeeds even when no checkpoint file exists. -/
theorem checkpoint_round_trip :
    (∀ (fs : FS) (t : Str), pyStrip t = t → load_progress (save_progress fs t) = some t) ∧
    (∀ (fs fs' : FS), unlink_progress true fs = .ok fs' → load_progress fs' = none) ∧
    unlink_progress true ⟨none⟩ = .ok ⟨none⟩ := by
  refine ⟨fun fs t ht => ?_, fun fs fs' h => ?_, ?_⟩
  · simp [load_progress, save_progress, ht]
  · unfold unlink_progress at h
    simp at h
    rw [← h]
    rfl
  · rfl

/-- Witness for C9 at a concrete timestamp. -/
theorem checkpoint_round_trip_witness :
    load_progress (save_progress ⟨none⟩ "2024-01-01T00:00:00".toList) =
      some "2024-01-01T00:00:00".toList :=
  checkpoint_round_trip.1 ⟨none⟩ "2024-01-01T00:00:00".toList (by decide)

/-- The windows of all sync invocations in a trace, in order. -/
def syncWindows (evs : List Event) : List (SourceTS × SourceTS) :=
  evs.filterMap fun e =>
    match e with
    | .eSync s e' _ => some (s, e')
    | _ => none

/-- C1: after the operator confirms that writes are stopped,
`handle_near_realtime` gates on a gap recomputed from the FRESH
source-latest read (the read taken at entry affects nothing but a log
line); when that gap exceeds 6 minutes it returns `False` without
touching the checkpoint file, without exiting and without any sync
call, and when it is at most 6 minutes it performs exactly one final
sync call spanning the window from the checkpoint value to the
wall-clock instant taken at that moment. -/
theorem handle_near_realtime_gating :
    (∀ (start : SourceTS) (o : HNROracle) (cp : Option SourceTS),
        6 < time_diff_minutes start.parse o.latest2.parse →
        handle_near_realtime start o cp = (.notReady, cp, [])) ∧
    (∀ (start : SourceTS) (o : HNROracle) (cp : Option SourceTS),
        time_diff_minutes start.parse o.latest2.parse ≤ 6 →
        syncWindows (handle_near_realtime start o cp).2.2 =
          [(start, (⟨o.now, false⟩ : SourceTS))]) ∧
    (∀ (start : SourceTS) (o o' : HNROracle) (cp : Option SourceTS),
        o.latest2 = o'.latest2 → o.now = o'.now → o.sync = o'.sync →
        handle_near_realtime start o cp = handle_near_realtime start o' cp) := by
  refine ⟨fun start o cp h => ?_, fun start o cp h => ?_, fun start o o' cp h2 hn hs => ?_⟩
  · unfold handle_near_realtime
    rw [if_pos h]
  · unfold handle_near_realtime
    rw [if_neg (by omega)]
    cases o.sync <;> simp [syncWindows]
  · unfold handle_near_realtime
    rw [h2, hn, hs]

/-- Witness for C1: a not-ready gating at gap 10 and a single final
sync at gap 0. -/
theorem handle_near_realtime_gating_witness :
    handle_near_realtime ⟨mkDateTime 2024 1 1 0 0 0 0 (some 0), false⟩
        ⟨⟨mkDateTime 2024 1 1 0 2 0 0 (some 0), false⟩,
         ⟨mkDateTime 2024 1 1 0 10 0 0 (some 0), false⟩,
         mkDateTime 2024 1 1 0 11 0 0 none, .retTrue⟩
        (some ⟨mkDateTime 2024 1 1 0 0 0 0 (some 0), false⟩) =
      (.notReady, some ⟨mkDateTime 2024 1 1 0 0 0 0 (some 0), false⟩, []) ∧
    syncWindows (handle_near_realtime ⟨mkDateTime 2024 1 1 0 0 0 0 (some 0), false⟩
        ⟨⟨mkDateTime 2024 1 1 0 2 0 0 (some 0), false⟩,
         ⟨mkDateTime 2024 1 1 0 3 0 0 (some 0), false⟩,
         mkDateTime 2024 1 1 0 4 0 0 none, .retTrue⟩
        (some ⟨mkDateTime 2024 1 1 0 0 0 0 (some 0), false⟩)).2.2 =
      [(⟨mkDateTime 2024 1 1 0 0 0 0 (some 0), false⟩,
        (⟨mkDateTime 2024 1 1 0 4 0 0 none, false⟩ : SourceTS))] :=
  ⟨handle_near_realtime_gating.1 _ _ _ (by decide),
   handle_near_realtime_gating.2.1 _ _ _ (by decide)⟩

/-- C6: when the final cutover sync does not succeed (falsy result or
raised exception), `handle_near_realtime` leaves the checkpoint file
untouched and the process ends with a nonzero status (`sys.exit(1)`
directly, or the exception propagates and the loop handler exits 1);
the checkpoint is deleted only on the success path of the final
sync. -/
theorem handle_near_realtime_preserves_checkpoint :
    (∀ (start : SourceTS) (o : HNROracle) (cp : Option SourceTS),
        time_diff_minutes start.parse o.latest2.parse ≤ 6 → o.sync ≠ .retTrue →
        (handle_near_realtime start o cp).2.1 = cp ∧
        ((handle_near_realtime start o cp).1 = .exitOne ∨
          (handle_near_realtime start o cp).1 = .raisedE)) ∧
    (∀ (start : SourceTS) (o : HNROracle) (cp : Option SourceTS),
        (handle_near_realtime start o cp).2.1 ≠ cp →
        o.sync = .retTrue ∧ time_diff_minutes start.parse o.latest2.parse ≤ 6 ∧
        (handle_near_realtime start o cp).2.1 = none ∧
        (handle_near_realtime start o cp).1 = .exitZero) ∧
    (∀ (st : MigState) (o : IterOracle),
        time_diff_minutes st.start.parse o.latest.parse ≤ 5 →
        (handle_near_realtime st.start o.hnr st.checkpoint).1 = .raisedE →
        (runStep st o).1 = Sum.inr .exitOne) := by
  refine ⟨fun start o cp h hs => ?_, fun start o cp h => ?_, fun st o h5 hr => ?_⟩
  · unfold handle_near_realtime
    rw [if_neg (by omega)]
    cases hsy : o.sync with
    | retTrue => exact absurd hsy hs
    | retFalse => exact ⟨rfl, Or.inl rfl⟩
    | raisedErr => exact ⟨rfl, Or.inr rfl⟩
  · unfold handle_near_realtime at h ⊢
    by_cases h6 : 6 < time_diff_minutes start.parse o.latest2.parse
    · rw [if_pos h6] at h
      exact absurd rfl h
    · rw [if_neg h6] at h ⊢
      cases hsy : o.sync with
      | retTrue => exact ⟨rfl, by omega, rfl, rfl⟩
      | retFalse => rw [hsy] at h; exact absurd rfl h
      | raisedErr => rw [hsy] at h; exact absurd rfl h
  · unfold runStep
    rw [if_pos h5]
    rcases hh : handle_near_realtime st.start o.hnr st.checkpoint with ⟨res, cp', evs⟩
    rw [hh] at hr
    simp at hr
    subst hr
    rfl

/-- Witness for C6: a failed final sync at gap 0 leaves the checkpoint
in place and exits 1. -/
theorem handle_near_realtime_preserves_checkpoint_witness :
    (handle_near_realtime ⟨mkDateTime 2024 1 1 0 0 0 0 (some 0), false⟩
        ⟨⟨mkDateTime 2024 1 1 0 2 0 0 (some 0), false⟩,
         ⟨mkDateTime 2024 1 1 0 3 0 0 (some 0), false⟩,
         mkDateTime 2024 1 1 0 4 0 0 none, .retFalse⟩
        (some ⟨mkDateTime 2024 1 1 0 0 0 0 (some 0), false⟩)).2.1 =
      some ⟨mkDateTime 2024 1 1 0 0 0 0 (some 0), false⟩ :=
  (handle_near_realtime_preserves_checkpoint.1 _ _ _ (by decide) (by decide)).1

/-- C7 is false on the code: when the cutover protocol reports not
ready, the window end computed immediately afterwards uses the gap and
source-latest read at the TOP of the iteration, not freshly recomputed
values.  Concretely, with top-of-iteration latest 00:04 (gap 4) and a
fresh post-confirmation latest of 00:15 (gap 15, so not ready), the
iteration syncs up to 00:04 and advances the checkpoint to 00:04, while
freshly recomputed values would have produced the window end 00:15. -/
theorem runStep_stale_counterexample :
    (let start : SourceTS := ⟨mkDateTime 2024 1 1 0 0 0 0 (some 0), false⟩
     let lTop : SourceTS := ⟨mkDateTime 2024 1 1 0 4 0 0 (some 0), false⟩
     let lFresh : SourceTS := ⟨mkDateTime 2024 1 1 0 15 0 0 (some 0), false⟩
     let st : MigState := ⟨start, some start⟩
     let o : IterOracle := ⟨lTop, ⟨lTop, lFresh, mkDateTime 2024 1 1 0 16 0 0 none, .retTrue⟩, .retTrue⟩
     time_diff_minutes st.start.parse o.latest.parse ≤ 5 ∧
     6 < time_diff_minutes st.start.parse o.hnr.latest2.parse ∧
     (runStep st o).1 = Sum.inl ⟨lTop, some lTop⟩ ∧
     get_next_timeTS st.start.parse (time_diff_minutes st.start.parse lFresh.parse) lFresh =
       lFresh ∧
     lTop ≠ lFresh) := by
  refine ⟨by decide, by decide, by decide, by decide, by decide⟩

/-- C7 (amended): when the cutover protocol reports not ready, the rest
of the iteration is exactly the batch phase on the TOP-of-iteration gap
and source-latest; in particular the outcome is invariant under
changing the fresh post-confirmation read (as long as it still gates to
not ready). -/
theorem runStep_notReady_uses_stale (st : MigState) (o : IterOracle)
    (h5 : time_diff_minutes st.start.parse o.latest.parse ≤ 5)
    (h6 : 6 < time_diff_minutes st.start.parse o.hnr.latest2.parse) :
    runStep st o =
      batchPhase st (time_diff_minutes st.start.parse o.latest.parse) o.latest o.sync ∧
    (∀ alt : SourceTS, 6 < time_diff_minutes st.start.parse alt.parse →
      runStep st { o with hnr := { o.hnr with latest2 := alt } } = runStep st o) := by
  have key : ∀ (o' : IterOracle), o'.latest = o.latest → o'.sync = o.sync →
      6 < time_diff_minutes st.start.parse o'.hnr.latest2.parse →
      runStep st o' =
        batchPhase st (time_diff_minutes st.start.parse o.latest.parse) o.latest o.sync := by
    intro o' hl hs h6'
    unfold runStep
    rw [hl, if_pos h5]
    unfold handle_near_realtime
    rw [if_pos h6']
    simp only [hl, hs, List.nil_append]
  refine ⟨key o rfl rfl h6, fun alt halt => ?_⟩
  rw [key { o with hnr := { o.hnr with latest2 := alt } } rfl rfl halt, key o rfl rfl h6]

/-- Witness for C7 (amended): concrete stale-value iteration. -/
theorem runStep_notReady_uses_stale_witness :
    (let st : MigState := ⟨⟨mkDateTime 2024 1 1 0 0 0 0 (some 0), false⟩,
                           some ⟨mkDateTime 2024 1 1 0 0 0 0 (some 0), false⟩⟩
     let o : IterOracle := ⟨⟨mkDateTime 2024 1 1 0 4 0 0 (some 0), false⟩,
        ⟨⟨mkDateTime 2024 1 1 0 4 0 0 (some 0), false⟩,
         ⟨mkDateTime 2024 1 1 0 15 0 0 (some 0), false⟩,
         mkDateTime 2024 1 1 0 16 0 0 none, .retTrue⟩, .retTrue⟩
     runStep st o =
       batchPhase st (time_diff_minutes st.start.parse o.latest.parse) o.latest o.sync) :=
  (runStep_notReady_uses_stale _ _ (by decide) (by decide)).1

/-! ## C3: monotonicity of the run_migration loop -/

/-- Every tier adds at least one hour. -/
theorem batch_hours_pos (gap : Int) : 1 ≤ batch_hours gap := by
  unfold batch_hours
  split
  · omega
  · split <;> omega

/-- Parsing a non-Z timestamp description is the identity on the
datetime. -/
theorem SourceTS.parse_mk (dt : PyDateTime) : SourceTS.parse ⟨dt, false⟩ = dt := by
  simp [SourceTS.parse]

/-- Adding hours advances the instant by exactly that many hours. -/
theorem instantUsec_addHours (k : Nat) (t : PyDateTime) :
    instantUsec (addHours k t) = instantUsec t + (k : Int) * 3600000000 := by
  unfold instantUsec addHours
  have hdm : ((t.hour + k) / 24) * 24 + (t.hour + k) % 24 = t.hour + k := by
    rw [Nat.mul_comm]
    exact Nat.div_add_mod _ _
  have hdm' : (((t.hour + k) / 24 : Nat) : Int) * 24 + (((t.hour + k) % 24 : Nat) : Int) =
      (t.hour : Int) + (k : Int) := by
    push_cast
    exact_mod_cast hdm
  push_cast
  nlinarith [hdm']

/-- The window end computed by `get_next_timeTS` never precedes the
start instant, provided the source-latest read does not precede it. -/
theorem instantUsec_get_next_timeTS (s : PyDateTime) (g : Int) (L : SourceTS)
    (h : instantUsec s ≤ instantUsec L.parse) :
    instantUsec s ≤ instantUsec (get_next_timeTS s g L).parse := by
  unfold get_next_timeTS
  by_cases hb : strLtB L.render (pyIsoformat (addHours (batch_hours g) s)) = true
  · rw [if_pos hb]; exact h
  · rw [if_neg hb, SourceTS.parse_mk, instantUsec_addHours]
    have hk : (0 : Int) ≤ (batch_hours g : Int) * 3600000000 := by positivity
    omega

/-- Characterization of a continuing loop iteration: the next start is
the computed window end, the saved checkpoint equals it, and the events
are exactly one successful sync from the old start followed by the
save. -/
theorem runStep_inl (st : MigState) (o : IterOracle) (st' : MigState) (evs : List Event)
    (h : runStep st o = (Sum.inl st', evs)) :
    evs = [.eSync st.start st'.start .retTrue, .eSave st'.start] ∧
    st'.checkpoint = some st'.start ∧
    st'.start =
      get_next_timeTS st.start.parse (time_diff_minutes st.start.parse o.latest.parse)
        o.latest := by
  unfold runStep handle_near_realtime batchPhase at h
  by_cases h5 : time_diff_minutes st.start.parse o.latest.parse ≤ 5
  · rw [if_pos h5] at h
    by_cases h6 : 6 < time_diff_minutes st.start.parse o.hnr.latest2.parse
    · rw [if_pos h6] at h
      cases hm : o.sync <;> rw [hm] at h <;> simp_all
      obtain ⟨hst, hevs⟩ := h
      subst hst
      subst hevs
      exact ⟨rfl, rfl, rfl⟩
    · rw [if_neg h6] at h
      cases hs : o.hnr.sync <;> rw [hs] at h <;> simp_all
  · rw [if_neg h5] at h
    cases hm : o.sync <;> rw [hm] at h <;> simp_all
    obtain ⟨hst, hevs⟩ := h
    subst hst
    subst hevs
    exact ⟨rfl, rfl, rfl⟩

/-- Characterization of a terminating loop iteration: the events are a
single sync from the old start, possibly followed by the checkpoint
deletion of the cutover success path. -/
theorem runStep_inr (st : MigState) (o : IterOracle) (ex : StepExit) (evs : List Event)
    (h : runStep st o = (Sum.inr ex, evs)) :
    (∃ e r, evs = [.eSync st.start e r]) ∨
    (∃ e, evs = [.eSync st.start e .retTrue, .eDeleteCheckpoint]) := by
  unfold runStep handle_near_realtime batchPhase at h
  by_cases h5 : time_diff_minutes st.start.parse o.latest.parse ≤ 5
  · rw [if_pos h5] at h
    by_cases h6 : 6 < time_diff_minutes st.start.parse o.hnr.latest2.parse
    · rw [if_pos h6] at h
      cases hm : o.sync <;> rw [hm] at h <;> simp_all
      · exact Or.inl ⟨_, _, h.2.symm⟩
      · exact Or.inl ⟨_, _, h.2.symm⟩
    · rw [if_neg h6] at h
      cases hs : o.hnr.sync <;> rw [hs] at h <;> simp_all
      · exact Or.inr ⟨_, h.2.symm⟩
      · exact Or.inl ⟨_, _, h.2.symm⟩
      · exact Or.inl ⟨_, _, h.2.symm⟩
  · rw [if_neg h5] at h
    cases hm : o.sync <;> rw [hm] at h <;> simp_all
    · exact Or.inl ⟨_, _, h.2.symm⟩
    · exact Or.inl ⟨_, _, h.2.symm⟩

/-- A trace does not begin with a progress save. -/
def headNotSaveB : List Event → Bool
  | .eSave _ :: _ => false
  | _ => true

/-- If a trace does not begin with a save, a save may precede it. -/
theorem saveOkPairB_eSave_head (v : SourceTS) (l : List Event) (h : headNotSaveB l = true) :
    ∀ y ∈ l.head?, saveOkPairB (Event.eSave v) y = true := by
  intro y hy
  cases l with
  | nil => simp at hy
  | cons a l' =>
    simp at hy
    subst hy
    cases a with
    | eSync s e r => rfl
    | eSave w => simp [headNotSaveB] at h
    | eDeleteCheckpoint => rfl

/-- Unfolding equation for the empty oracle list. -/
theorem runLoop_nil (st : MigState) : runLoop st [] = (none, [], st) := rfl

/-- Unfolding equation for one loop iteration. -/
theorem runLoop_cons (st : MigState) (o : IterOracle) (os : List IterOracle) :
    runLoop st (o :: os) =
      (match runStep st o with
       | (Sum.inl st', evs) =>
         let r := runLoop st' os
         (r.1, evs ++ r.2.1, r.2.2)
       | (Sum.inr ex, evs) => (some ex, evs, st)) := rfl

/-- Trace of a continuing iteration: its own events followed by the
rest of the run. -/
theorem runLoop_cons_inl (st : MigState) (o : IterOracle) (os : List IterOracle)
    (st' : MigState) (evs : List Event) (h : runStep st o = (Sum.inl st', evs)) :
    (runLoop st (o :: os)).2.1 = evs ++ (runLoop st' os).2.1 := by
  rw [runLoop_cons, h]

/-- Trace of a terminating iteration: its own events only. -/
theorem runLoop_cons_inr (st : MigState) (o : IterOracle) (os : List IterOracle)
    (ex : StepExit) (evs : List Event) (h : runStep st o = (Sum.inr ex, evs)) :
    (runLoop st (o :: os)).2.1 = evs := by
  rw [runLoop_cons, h]

/-- Unfolding equation for the freshness condition. -/
theorem latestsFreshB_cons (st : MigState) (o : IterOracle) (os : List IterOracle) :
    latestsFreshB st (o :: os) =
      (decide (instantUsec st.start.parse ≤ instantUsec o.latest.parse) &&
       (match runStep st o with
        | (Sum.inl st', _) => latestsFreshB st' os
        | (Sum.inr _, _) => true)) := rfl

/-- Trace invariant of the migration loop, proved by induction over the
oracle list: successful windows chain end-to-start, saved checkpoints
are monotone in instant value and each save immediately follows its
successful sync; additionally the first window (if any) starts at the
current start time, and the first save (if any) does not precede it. -/
theorem runLoop_inv (oracles : List IterOracle) : ∀ st : MigState,
    latestsFreshB st oracles = true →
    List.Chain' (fun w1 w2 => w1.2 = w2.1) (okWindows (runLoop st oracles).2.1) ∧
    List.Chain' (fun a b => instantUsec a.parse ≤ instantUsec b.parse)
      (saveVals (runLoop st oracles).2.1) ∧
    headNotSaveB (runLoop st oracles).2.1 = true ∧
    List.Chain' (fun a b => saveOkPairB a b = true) (runLoop st oracles).2.1 ∧
    (∀ w ∈ (okWindows (runLoop st oracles).2.1).head?, w.1 = st.start) ∧
    (∀ v ∈ (saveVals (runLoop st oracles).2.1).head?,
      instantUsec st.start.parse ≤ instantUsec v.parse) := by
  induction oracles with
  | nil =>
    intro st _
    simp [runLoop_nil, okWindows, saveVals, headNotSaveB]
  | cons o os ih =>
    intro st hf
    rcases hstep : runStep st o with ⟨res, evs⟩
    rw [latestsFreshB_cons, hstep] at hf
    cases res with
    | inl st' =>
      simp only [Bool.and_eq_true, decide_eq_true_eq] at hf
      obtain ⟨hfresh, hrest⟩ := hf
      obtain ⟨hevs, hcp, hnext⟩ := runStep_inl st o st' evs hstep
      subst hevs
      have hT : (runLoop st (o :: os)).2.1 =
          [Event.eSync st.start st'.start .retTrue, Event.eSave st'.start] ++
            (runLoop st' os).2.1 := runLoop_cons_inl st o os st' _ hstep
      obtain ⟨ih1, ih2, ih3, ih4, ih5, ih6⟩ := ih st' hrest
      have hok : okWindows ((runLoop st (o :: os)).2.1) =
          (st.start, st'.start) :: okWindows (runLoop st' os).2.1 := by
        rw [hT]
        simp [okWindows]
      have hsv : saveVals ((runLoop st (o :: os)).2.1) =
          st'.start :: saveVals (runLoop st' os).2.1 := by
        rw [hT]
        simp [saveVals]
      refine ⟨?_, ?_, ?_, ?_, ?_, ?_⟩
      · rw [hok]
        refine List.chain'_cons'.mpr ⟨?_, ih1⟩
        intro y hy
        exact (ih5 y hy).symm
      · rw [hsv]
        refine List.chain'_cons'.mpr ⟨?_, ih2⟩
        intro v hv
        exact ih6 v hv
      · rw [hT]
        rfl
      · rw [hT]
        refine List.chain'_cons'.mpr ⟨?_, List.chain'_cons'.mpr ⟨?_, ih4⟩⟩
        · intro y hy
          simp at hy
          subst hy
          simp [saveOkPairB]
        · exact saveOkPairB_eSave_head st'.start _ ih3
      · rw [hok]
        intro w hw
        simp at hw
        subst hw
        rfl
      · rw [hsv]
        intro v hv
        simp at hv
        subst hv
        rw [hnext]
        exact instantUsec_get_next_timeTS _ _ _ hfresh
    | inr ex =>
      have hT : (runLoop st (o :: os)).2.1 = evs := runLoop_cons_inr st o os ex evs hstep
      rcases runStep_inr st o ex evs hstep with ⟨e, r, hevs⟩ | ⟨e, hevs⟩
      · subst hevs
        rw [hT]
        cases r <;>
          simp [okWindows, saveVals, headNotSaveB, saveOkPairB]
      · subst hevs
        rw [hT]
        simp [okWindows, saveVals, headNotSaveB, saveOkPairB]

/-- C3: across any run of the migration loop in which the source-latest
reads never fall behind the already-migrated horizon, every successive
successful window starts where the previous one ended, the persisted
checkpoint values are non-decreasing as instants, and the trace never
contains a progress save except immediately after the successful sync
whose window ends at the saved value. -/
theorem run_migration_monotone (st : MigState) (oracles : List IterOracle)
    (hf : latestsFreshB st oracles = true) :
    List.Chain' (fun w1 w2 => w1.2 = w2.1) (okWindows (runLoop st oracles).2.1) ∧
    List.Chain' (fun a b => instantUsec a.parse ≤ instantUsec b.parse)
      (saveVals (runLoop st oracles).2.1) ∧
    headNotSaveB (runLoop st oracles).2.1 = true ∧
    List.Chain' (fun a b => saveOkPairB a b = true) (runLoop st oracles).2.1 := by
  obtain ⟨h1, h2, h3, h4, _, _⟩ := runLoop_inv oracles st hf
  exact ⟨h1, h2, h3, h4⟩

/-- Witness for C3: a concrete two-batch run from 2024-01-01T00:00:00
with source latest 2024-01-02T00:00:00 advances 00:00 to 06:00 to 12:00
with chained windows and monotone saves. -/
theorem run_migration_monotone_witness :
    (let start0 : SourceTS := ⟨mkDateTime 2024 1 1 0 0 0 0 (some 0), false⟩
     let latest : SourceTS := ⟨mkDateTime 2024 1 2 0 0 0 0 (some 0), false⟩
     let ho : HNROracle := ⟨latest, latest, mkDateTime 2024 1 2 0 0 0 0 none, .retTrue⟩
     let st : MigState := ⟨start0, some start0⟩
     let oracles : List IterOracle := [⟨latest, ho, .retTrue⟩, ⟨latest, ho, .retTrue⟩]
     List.Chain' (fun w1 w2 => w1.2 = w2.1) (okWindows (runLoop st oracles).2.1) ∧
     List.Chain' (fun a b => instantUsec a.parse ≤ instantUsec b.parse)
       (saveVals (runLoop st oracles).2.1) ∧
     headNotSaveB (runLoop st oracles).2.1 = true ∧
     List.Chain' (fun a b => saveOkPairB a b = true) (runLoop st oracles).2.1) :=
  run_migration_monotone _ _ (by decide)

end OpensearchMigration
